import Mathlib

/-
Verification of the observable-state adaptation layer (src/unnamed/part_000).

The repository is a thin glue layer over an external reactivity engine
(`@vue/reactivity`). Per the specification the engine itself is an opaque
capability (spec section 6); its operations (`reactive`, `ref`, `isRef`,
`effect`, `pauseTracking`, `resetTracking`) are modelled here from their
documented contracts, while every function of the repository itself
(`ObservationIgnored`, `Observable`'s wrapping pass, `bindable`,
`ignoringObservation`, `withObservationTracking`) is translated directly
from the source.
-/

set_option autoImplicit false

namespace Obs

/-! ## Tracking model

The external engine's tracking state: `pauseTracking` / `resetTracking`
maintain a pause depth (the engine keeps a stack of tracking flags; depth
of pauses is the faithful pure rendering). Dependency recording happens
only while no pause is active. A run of a tracked effect also records a
trace of the callback invocations, so that ordering claims can be stated.
-/

/-- Events observable during one run of the tracked effect body. -/
inductive TraceEvent where
  | onChangeCall
  | applyCall
  deriving DecidableEq, Repr

/-- State threaded through one run of a tracked computation: the engine's
pause depth, the dependencies recorded so far (cell identifiers), and the
trace of callback invocations. -/
structure RunState where
  pauseDepth : Nat
  deps : List Nat
  trace : List TraceEvent
  deriving DecidableEq, Repr

/-- External engine, modelled from the spec contract: suspends dependency
recording (one more pause level). -/
def pauseTracking (s : RunState) : RunState :=
  { s with pauseDepth := s.pauseDepth + 1 }

/-- External engine, modelled from the spec contract: undoes one pause
level, resuming dependency recording when no pause remains. -/
def resetTracking (s : RunState) : RunState :=
  { s with pauseDepth := s.pauseDepth - 1 }

/-- Whether dependency recording is currently active. -/
def trackingActive (s : RunState) : Bool :=
  s.pauseDepth == 0

/-- External engine, modelled from the spec contract: a reactive read of
cell `c` is recorded as a dependency exactly when tracking is active. -/
def readCell (s : RunState) (c : Nat) : RunState :=
  if trackingActive s then { s with deps := s.deps ++ [c] } else s

/-- A sequence of reactive reads performed by a closure. -/
def runReads (s : RunState) (cells : List Nat) : RunState :=
  cells.foldl readCell s

/-- Translation of `ignoringObservation` (source lines 211-216):
`pauseTracking(); const value = nonReactiveReadsFunc(); resetTracking();
return value`. The closure is modelled as a state transformer that either
returns normally (`Except.ok`) or throws (`Except.error`); on the throwing
path the exception propagates before `resetTracking()` runs, exactly as in
the source. -/
def ignoringObservation {E A : Type} (nonReactiveReadsFunc : RunState → Except E A × RunState)
    (s : RunState) : Except E A × RunState :=
  match nonReactiveReadsFunc (pauseTracking s) with
  | (Except.ok value, s2) => (Except.ok value, resetTracking s2)
  | (Except.error e, s2) => (Except.error e, s2)

/-- A non-throwing `onChange` closure performing the given reactive reads,
as invoked by the effect body. Its invocation is logged to the trace. -/
def invokeOnChange (reads : List Nat) (s : RunState) : Except Unit Unit × RunState :=
  (Except.ok (), runReads { s with trace := s.trace ++ [TraceEvent.onChangeCall] } reads)

/-- The `apply` closure performing the given reactive reads. Its invocation
is logged to the trace. -/
def invokeApply (reads : List Nat) (s : RunState) : RunState :=
  runReads { s with trace := s.trace ++ [TraceEvent.applyCall] } reads

/-- Translation of the effect body passed to `effect` in
`withObservationTracking` (source lines 265-268):
`if (onChange) ignoringObservation(onChange); return apply()`. -/
def effectBody (apply : List Nat) (onChange : Option (List Nat)) (s : RunState) : RunState :=
  match onChange with
  | some oc => invokeApply apply (ignoringObservation (invokeOnChange oc) s).2
  | none => invokeApply apply s

/-- The state at the start of a run: tracking active, no dependencies or
trace recorded yet. -/
def initialRunState : RunState :=
  { pauseDepth := 0, deps := [], trace := [] }

/-- Translation of `withObservationTracking` (source lines 250-269): hands
the effect body to the engine's `effect`, which per the spec contract
"runs fn now". This gives the state produced by that initial run; the
dependencies it records are what the engine later retriggers on. -/
def withObservationTracking (apply : List Nat) (onChange : Option (List Nat)) : RunState :=
  effectBody apply onChange initialRunState

/-- External engine, modelled from the spec contract: a mutation of cell
`c` re-invokes the tracked effect exactly when `c` was recorded as a
dependency during the run. -/
def retriggers (deps : List Nat) (c : Nat) : Bool :=
  deps.contains c

/-! ### Basic run lemmas -/

theorem runReads_pauseDepth (cells : List Nat) (s : RunState) :
    (runReads s cells).pauseDepth = s.pauseDepth := by
  induction cells generalizing s with
  | nil => rfl
  | cons c cs ih =>
    simp only [runReads, List.foldl_cons] at *
    rw [ih]
    unfold readCell
    split <;> rfl

theorem runReads_trace (cells : List Nat) (s : RunState) :
    (runReads s cells).trace = s.trace := by
  induction cells generalizing s with
  | nil => rfl
  | cons c cs ih =>
    simp only [runReads, List.foldl_cons] at *
    rw [ih]
    unfold readCell
    split <;> rfl

theorem runReads_deps_paused_state (cells : List Nat) (s : RunState) (h : s.pauseDepth ≠ 0) :
    runReads s cells = s := by
  induction cells generalizing s with
  | nil => rfl
  | cons c cs ih =>
    simp only [runReads, List.foldl_cons] at *
    have hread : readCell s c = s := by
      unfold readCell trackingActive
      simp [h]
    rw [hread]
    exact ih s h

theorem runReads_deps_active (cells : List Nat) (s : RunState) (h : s.pauseDepth = 0) :
    (runReads s cells).deps = s.deps ++ cells := by
  induction cells generalizing s with
  | nil => simp [runReads]
  | cons c cs ih =>
    simp only [runReads, List.foldl_cons] at *
    have hread : readCell s c = { s with deps := s.deps ++ [c] } := by
      unfold readCell trackingActive
      simp [h]
    rw [hread]
    rw [ih { s with deps := s.deps ++ [c] } h]
    simp

theorem ignoringObservation_ok {E A : Type} (fn : RunState → Except E A × RunState)
    (s : RunState) (v : A) (s2 : RunState) (h : fn (pauseTracking s) = (Except.ok v, s2)) :
    ignoringObservation fn s = (Except.ok v, resetTracking s2) := by
  unfold ignoringObservation
  rw [h]

theorem resetTracking_pauseTracking (s : RunState) :
    resetTracking (pauseTracking s) = s := by
  simp [resetTracking, pauseTracking]

theorem effectBody_some_state (apply oc : List Nat) :
    withObservationTracking apply (some oc) =
      runReads { pauseDepth := 0, deps := [], trace := [TraceEvent.onChangeCall, TraceEvent.applyCall] }
        apply := by
  show invokeApply apply (ignoringObservation (invokeOnChange oc) initialRunState).2 =
    runReads { pauseDepth := 0, deps := [], trace := [TraceEvent.onChangeCall, TraceEvent.applyCall] }
      apply
  have hoc : invokeOnChange oc (pauseTracking initialRunState) =
      (Except.ok (), { pauseDepth := 1, deps := [], trace := [TraceEvent.onChangeCall] }) := by
    unfold invokeOnChange
    rw [runReads_deps_paused_state oc _ (by simp [pauseTracking, initialRunState])]
    rfl
  rw [ignoringObservation_ok (invokeOnChange oc) initialRunState () _ hoc]
  rfl

/-- Claim C9: when `onChange` is supplied, the initial run of the tracked
effect (which the engine performs immediately) invokes `onChange` exactly
once, before `apply` executes for the first time: the trace of the initial
run is precisely `[onChangeCall, applyCall]`. -/
theorem withObservationTracking_initial_trace (apply oc : List Nat) :
    (withObservationTracking apply (some oc)).trace =
      [TraceEvent.onChangeCall, TraceEvent.applyCall] := by
  rw [effectBody_some_state]
  rw [runReads_trace]

/-- Claim C5: `onChange` runs under `ignoringObservation`, with tracking
paused for its duration, so the dependencies recorded by the run are
exactly the reads of `apply`; a cell read only inside `onChange` is not a
dependency and mutating it never re-invokes the effect. -/
theorem withObservationTracking_onChange_isolated (apply oc : List Nat) (c : Nat)
    (_hoc : c ∈ oc) (hap : c ∉ apply) :
    trackingActive (pauseTracking initialRunState) = false ∧
      (withObservationTracking apply (some oc)).deps = apply ∧
      retriggers (withObservationTracking apply (some oc)).deps c = false := by
  have hdeps : (withObservationTracking apply (some oc)).deps = apply := by
    rw [effectBody_some_state]
    rw [runReads_deps_active apply _ rfl]
    rfl
  refine ⟨rfl, hdeps, ?_⟩
  rw [hdeps]
  unfold retriggers
  simpa using hap

/-- Witness for C5 at a concrete input: `onChange` reads cell 5, `apply`
reads cell 3; cell 5 is not a dependency. -/
theorem withObservationTracking_onChange_isolated_witness :
    trackingActive (pauseTracking initialRunState) = false ∧
      (withObservationTracking [3] (some [5])).deps = [3] ∧
      retriggers (withObservationTracking [3] (some [5])).deps 5 = false :=
  withObservationTracking_onChange_isolated [3] [5] 5 (by simp) (by simp)

/-- Claim C6 counterexample: the claim says tracking is resumed even when
`fn` throws, but the source calls `resetTracking()` only after a normal
return. With a throwing closure, starting from the tracking-active initial
state, the call exits with tracking still paused. -/
theorem ignoringObservation_throw_leaves_tracking_paused :
    trackingActive initialRunState = true ∧
      (ignoringObservation (fun s => ((Except.error () : Except Unit Unit), s))
          initialRunState).1 = Except.error () ∧
      trackingActive
        (ignoringObservation (fun s => ((Except.error () : Except Unit Unit), s))
          initialRunState).2 = false :=
  ⟨rfl, rfl, rfl⟩

/-- Claim C6 (amended): `ignoringObservation` runs `fn` with tracking
paused, and resumes tracking before returning whenever `fn` returns
normally; on a throwing `fn` the pause is not undone. Stated for a closure
that returns normally without itself altering the tracking state: the
original state is restored exactly. -/
theorem ignoringObservation_resumes_on_normal_return {E A : Type}
    (fn : RunState → Except E A × RunState) (v : A) (s : RunState)
    (h : fn (pauseTracking s) = (Except.ok v, pauseTracking s)) :
    trackingActive (pauseTracking s) = false ∧
      ignoringObservation fn s = (Except.ok v, s) := by
  constructor
  · simp [trackingActive, pauseTracking]
  · rw [ignoringObservation_ok fn s v (pauseTracking s) h]
    rw [resetTracking_pauseTracking]

/-- Witness for the amended C6 at a concrete input. -/
theorem ignoringObservation_resumes_on_normal_return_witness :
    trackingActive (pauseTracking initialRunState) = false ∧
      ignoringObservation (fun st => ((Except.ok 3 : Except Unit Nat), st)) initialRunState =
        (Except.ok 3, initialRunState) :=
  ignoringObservation_resumes_on_normal_return
    (fun st => ((Except.ok 3 : Except Unit Nat), st)) 3 initialRunState rfl

/-- Claim C10: when `fn` returns normally with value `v`,
`ignoringObservation fn` returns `v` — the wrapper is transparent with
respect to the return value. -/
theorem ignoringObservation_transparent_return {E A : Type}
    (fn : RunState → Except E A × RunState) (v : A) (s s2 : RunState)
    (h : fn (pauseTracking s) = (Except.ok v, s2)) :
    (ignoringObservation fn s).1 = Except.ok v := by
  rw [ignoringObservation_ok fn s v s2 h]

/-- Witness for C10 at a concrete input. -/
theorem ignoringObservation_transparent_return_witness :
    (ignoringObservation (fun st => ((Except.ok 42 : Except Unit Nat), st))
        initialRunState).1 = Except.ok 42 :=
  ignoringObservation_transparent_return
    (fun st => ((Except.ok 42 : Except Unit Nat), st)) 42 initialRunState
    (pauseTracking initialRunState) rfl

/-! ## Observable transform

Translation of the `Observable` class decorator's wrapping pass (source
lines 80-131). JavaScript values are modelled by an inductive covering the
typeof categories the wrapping condition distinguishes; objects and
functions carry an identity. The external engine's `reactive` returns the
wrapped object (the spec contract leaves the reference semantics
implementation-defined, so it is modelled as content-preserving); `ref`
produces a cell object with its own identity, recognised by `isRef`.
-/

/-- JavaScript values as the wrapping pass distinguishes them. -/
inductive Value where
  | undef
  | null
  | bool (b : Bool)
  | num (n : Int)
  | str (s : String)
  | func (id : Nat)
  | object (id : Nat)
  deriving DecidableEq, Repr

/-- JavaScript's `typeof` operator on the modelled values. -/
def typeofValue : Value → String
  | Value.undef => "undefined"
  | Value.null => "object"
  | Value.bool _ => "boolean"
  | Value.num _ => "number"
  | Value.str _ => "string"
  | Value.func _ => "function"
  | Value.object _ => "object"

/-- External engine, modelled from the spec contract: `reactive(value)`
wraps an object so its reads and writes are trackable and returns the
wrapped object; content is preserved. -/
def reactive (v : Value) : Value := v

/-- Content of the hidden backing slot `this[backingRef]`: either a ref
cell made by `ref(value)` (carrying the cell object's identity), or the
result of `reactive(value)`, which is not a ref cell. -/
inductive SlotContent where
  | refCell (id : Nat) (v : Value)
  | reactiveVal (v : Value)
  deriving DecidableEq, Repr

/-- External engine, modelled from the spec contract: `isRef` recognises
exactly the cells produced by `ref`. -/
def isRef : SlotContent → Bool
  | SlotContent.refCell _ _ => true
  | SlotContent.reactiveVal _ => false

/-- Translation of the backing-slot initialiser (source lines 103-109):
`typeof initialValue.value === "object" || initialValue.value === "undefined"
? reactive(initialValue.value) : ref(initialValue.value)`. Note the source
compares the value itself against the string literal `"undefined"`. The
`id` is the fresh identity of the ref cell when one is created. -/
def mkBackingSlot (id : Nat) (v : Value) : SlotContent :=
  if typeofValue v == "object" || v == Value.str "undefined" then
    SlotContent.reactiveVal (reactive v)
  else
    SlotContent.refCell id v

/-- Translation of the generated getter (source lines 112-115):
`isRef(instance) ? instance.value : instance`. -/
def getSlot : SlotContent → Value
  | SlotContent.refCell _ v => v
  | SlotContent.reactiveVal v => v

/-- Translation of the generated setter (source lines 116-123): when the
slot holds a ref cell, `instance.value = v` updates the same cell in
place (identity preserved); otherwise `this[backingRef] = reactive(v)`
replaces the slot's content with a fresh reactive wrap of `v`. -/
def setSlot : SlotContent → Value → SlotContent
  | SlotContent.refCell id _, v => SlotContent.refCell id v
  | SlotContent.reactiveVal _, v => SlotContent.reactiveVal (reactive v)

/-- Per-property result of the wrapping pass: an ignored property is left
as the plain data field it was (`continue` in the loop), every other
property is redefined as an accessor pair over a hidden backing slot. -/
inductive PropBacking where
  | plainField (v : Value)
  | accessor (slot : SlotContent)
  deriving DecidableEq, Repr

/-- First-match association-list lookup, the model of reading an own
property slot of the instance. -/
def lookupProp {A : Type} : List (String × A) → String → Option A
  | [], _ => none
  | (k, a) :: rest, p => if k = p then some a else lookupProp rest p

/-- Translation of the wrapping loop (source lines 95-129): walk the own
properties in order; skip properties on the ignore list; give each other
property a fresh backing slot (the fresh `Symbol` identity is modelled by
the running index `i`) and the accessor pair over it. -/
def wrapProps (i : Nat) : List (String × Value) → List String → List (String × PropBacking)
  | [], _ => []
  | (p, v) :: rest, ignoredProps =>
    if ignoredProps.contains p then
      (p, PropBacking.plainField v) :: wrapProps (i + 1) rest ignoredProps
    else
      (p, PropBacking.accessor (mkBackingSlot i v)) :: wrapProps (i + 1) rest ignoredProps

/-- The instance state after the `Observed` constructor finished (source
lines 80-131): every own property wrapped unless ignored. -/
def wrapInstance (props : List (String × Value)) (ignoredProps : List String) :
    List (String × PropBacking) :=
  wrapProps 0 props ignoredProps

/-- One read of a property backing: a plain field yields its stored
value, an accessor goes through the generated getter. -/
def readBacking : PropBacking → Value
  | PropBacking.plainField v => v
  | PropBacking.accessor slot => getSlot slot

/-- One write to a property backing: a plain field is overwritten like an
ordinary data property, an accessor goes through the generated setter. -/
def updateBacking (v : Value) : PropBacking → PropBacking
  | PropBacking.plainField _ => PropBacking.plainField v
  | PropBacking.accessor slot => PropBacking.accessor (setSlot slot v)

/-- Reading property `p` of a transformed instance. -/
def readProp (inst : List (String × PropBacking)) (p : String) : Option Value :=
  (lookupProp inst p).map readBacking

/-- Writing `v` to property `p` of a transformed instance: the matching
own property's backing receives the write, everything else is untouched. -/
def writeProp : List (String × PropBacking) → String → Value → List (String × PropBacking)
  | [], _, _ => []
  | (k, b) :: rest, p, v =>
    if k = p then (k, updateBacking v b) :: writeProp rest p v
    else (k, b) :: writeProp rest p v

/-- Scalar initial value in the spec's sense: neither an object nor
`undefined`. -/
def isScalarValue (v : Value) : Bool :=
  !(typeofValue v == "object") && !(v == Value.undef)

/-- The value left in a location after a sequence of plain overwrites. -/
def lastWrite (v : Value) (ws : List Value) : Value :=
  ws.foldl (fun _ w => w) v

/-! ### Transform lemmas -/

theorem getSlot_mkBackingSlot (j : Nat) (v : Value) : getSlot (mkBackingSlot j v) = v := by
  unfold mkBackingSlot
  split <;> rfl

theorem getSlot_setSlot (slot : SlotContent) (v : Value) : getSlot (setSlot slot v) = v := by
  cases slot <;> rfl

theorem lookupProp_wrapProps_ignored (props : List (String × Value)) (ignoredProps : List String)
    (p : String) (i : Nat) (h : p ∈ ignoredProps) :
    lookupProp (wrapProps i props ignoredProps) p =
      (lookupProp props p).map PropBacking.plainField := by
  induction props generalizing i with
  | nil => rfl
  | cons kv rest ih =>
    obtain ⟨k, v⟩ := kv
    by_cases hk : k = p
    · subst hk
      simp [wrapProps, h, lookupProp]
    · by_cases hik : k ∈ ignoredProps <;>
        simp [wrapProps, hik, lookupProp, hk, ih]

theorem lookupProp_wrapProps_not_ignored (props : List (String × Value))
    (ignoredProps : List String) (p : String) (i : Nat) (v : Value)
    (h : p ∉ ignoredProps) (hv : lookupProp props p = some v) :
    ∃ j, lookupProp (wrapProps i props ignoredProps) p =
      some (PropBacking.accessor (mkBackingSlot j v)) := by
  induction props generalizing i with
  | nil => simp [lookupProp] at hv
  | cons kv rest ih =>
    obtain ⟨k, w⟩ := kv
    by_cases hk : k = p
    · subst hk
      simp [lookupProp] at hv
      subst hv
      refine ⟨i, ?_⟩
      simp [wrapProps, h, lookupProp]
    · simp [lookupProp, hk] at hv
      obtain ⟨j, hj⟩ := ih (i + 1) hv
      refine ⟨j, ?_⟩
      by_cases hik : k ∈ ignoredProps <;>
        simp [wrapProps, hik, lookupProp, hk, hj]

theorem lookupProp_writeProp (inst : List (String × PropBacking)) (p : String) (v : Value) :
    lookupProp (writeProp inst p v) p = (lookupProp inst p).map (updateBacking v) := by
  induction inst with
  | nil => rfl
  | cons kb rest ih =>
    obtain ⟨k, b⟩ := kb
    by_cases hk : k = p
    · subst hk
      simp [writeProp, lookupProp]
    · simp [writeProp, lookupProp, hk, ih]

theorem foldl_setSlot_refCell (ws : List Value) (id : Nat) (v : Value) :
    List.foldl setSlot (SlotContent.refCell id v) ws = SlotContent.refCell id (lastWrite v ws) := by
  induction ws generalizing v with
  | nil => rfl
  | cons w rest ih =>
    simp only [List.foldl_cons, setSlot]
    rw [ih]
    rfl

/-! ### Claims about the transform -/

/-- Claim C2 is falsified by the code: the wrapping condition compares the
initial value itself against the string literal `"undefined"` instead of
using `typeof`, so a property whose initial value is `undefined` gets a
scalar `ref` cell (not a reactive-object wrapper), while a property whose
initial value is the string `"undefined"` (a scalar) gets the reactive
wrapper. An object-valued property does get the reactive wrapper. -/
theorem mkBackingSlot_undefined_is_scalar_cell :
    mkBackingSlot 0 Value.undef = SlotContent.refCell 0 Value.undef ∧
      isRef (mkBackingSlot 0 Value.undef) = true ∧
      mkBackingSlot 0 (Value.str "undefined") = SlotContent.reactiveVal (Value.str "undefined") ∧
      isScalarValue (Value.str "undefined") = true ∧
      mkBackingSlot 0 (Value.object 7) = SlotContent.reactiveVal (Value.object 7) := by
  refine ⟨by decide, by decide, by decide, by decide, by decide⟩

/-- Claim C3: for a non-ignored own scalar property `p` with initial value
`v`, reading `p` right after construction returns `v`, and after writing
`v2` reading returns `v2`. -/
theorem observable_scalar_roundtrip (props : List (String × Value)) (ignoredProps : List String)
    (p : String) (v v2 : Value)
    (hig : ignoredProps.contains p = false)
    (hv : lookupProp props p = some v)
    (_hs : isScalarValue v = true) :
    readProp (wrapInstance props ignoredProps) p = some v ∧
      readProp (writeProp (wrapInstance props ignoredProps) p v2) p = some v2 := by
  obtain ⟨j, hj⟩ :=
    lookupProp_wrapProps_not_ignored props ignoredProps p 0 v (by simpa using hig) hv
  have hj' : lookupProp (wrapInstance props ignoredProps) p =
      some (PropBacking.accessor (mkBackingSlot j v)) := hj
  constructor
  · unfold readProp
    rw [hj']
    simp [readBacking, getSlot_mkBackingSlot]
  · unfold readProp
    rw [lookupProp_writeProp, hj']
    simp [readBacking, updateBacking, getSlot_setSlot]

/-- Witness for C3 at a concrete input: property `count` with initial
value 1, written to 2. -/
theorem observable_scalar_roundtrip_witness :
    readProp (wrapInstance [("count", Value.num 1)] []) "count" = some (Value.num 1) ∧
      readProp (writeProp (wrapInstance [("count", Value.num 1)] []) "count" (Value.num 2))
          "count" = some (Value.num 2) :=
  observable_scalar_roundtrip [("count", Value.num 1)] [] "count" (Value.num 1) (Value.num 2)
    rfl rfl rfl

/-- Claim C4: an ignored property is left untouched by the wrapping pass:
it stays a plain data field, no backing slot or accessor is created for
it, and assignment overwrites the plain field directly. -/
theorem observable_ignored_untouched (props : List (String × Value)) (ignoredProps : List String)
    (p : String) (v v2 : Value)
    (hig : ignoredProps.contains p = true)
    (hv : lookupProp props p = some v) :
    lookupProp (wrapInstance props ignoredProps) p = some (PropBacking.plainField v) ∧
      (∀ slot, lookupProp (wrapInstance props ignoredProps) p ≠
        some (PropBacking.accessor slot)) ∧
      lookupProp (writeProp (wrapInstance props ignoredProps) p v2) p =
        some (PropBacking.plainField v2) ∧
      readProp (writeProp (wrapInstance props ignoredProps) p v2) p = some v2 := by
  have h1 : lookupProp (wrapInstance props ignoredProps) p = some (PropBacking.plainField v) := by
    have hlm := lookupProp_wrapProps_ignored props ignoredProps p 0 (by simpa using hig)
    unfold wrapInstance
    rw [hlm, hv]
    rfl
  have h3 : lookupProp (writeProp (wrapInstance props ignoredProps) p v2) p =
      some (PropBacking.plainField v2) := by
    rw [lookupProp_writeProp, h1]
    rfl
  refine ⟨h1, ?_, h3, ?_⟩
  · intro slot hslot
    rw [h1] at hslot
    exact absurd (Option.some.inj hslot) (by simp)
  · unfold readProp
    rw [h3]
    rfl

/-- Witness for C4 at a concrete input: ignored property `temp` with
initial value 7, written to 8. -/
theorem observable_ignored_untouched_witness :
    lookupProp (wrapInstance [("temp", Value.num 7)] ["temp"]) "temp" =
        some (PropBacking.plainField (Value.num 7)) ∧
      (∀ slot, lookupProp (wrapInstance [("temp", Value.num 7)] ["temp"]) "temp" ≠
        some (PropBacking.accessor slot)) ∧
      lookupProp (writeProp (wrapInstance [("temp", Value.num 7)] ["temp"]) "temp" (Value.num 8))
          "temp" = some (PropBacking.plainField (Value.num 8)) ∧
      readProp (writeProp (wrapInstance [("temp", Value.num 7)] ["temp"]) "temp" (Value.num 8))
          "temp" = some (Value.num 8) :=
  observable_ignored_untouched [("temp", Value.num 7)] ["temp"] "temp" (Value.num 7)
    (Value.num 8) rfl rfl

/-- Claim C8: each non-ignored own property gets exactly one backing cell
at construction; a scalar (ref-cell) backed slot is updated in place by
any sequence of writes — same cell identity, same cell kind — while an
object-backed slot has its content replaced wholesale by a fresh reactive
wrap of the written value. -/
theorem observable_backing_cell_invariant :
    (∀ props ignoredProps p v, List.contains ignoredProps p = false →
        lookupProp props p = some v →
        ∃ j, lookupProp (wrapInstance props ignoredProps) p =
          some (PropBacking.accessor (mkBackingSlot j v))) ∧
      (∀ id v ws, List.foldl setSlot (SlotContent.refCell id v) ws =
        SlotContent.refCell id (lastWrite v ws)) ∧
      (∀ w v2, setSlot (SlotContent.reactiveVal w) v2 =
        SlotContent.reactiveVal (reactive v2)) := by
  refine ⟨?_, ?_, ?_⟩
  · intro props ignoredProps p v h hv
    exact lookupProp_wrapProps_not_ignored props ignoredProps p 0 v (by simpa using h) hv
  · intro id v ws
    exact foldl_setSlot_refCell ws id v
  · intro w v2
    rfl

/-- Witness for C8 at concrete inputs. -/
theorem observable_backing_cell_invariant_witness :
    (∃ j, lookupProp (wrapInstance [("x", Value.num 1)] []) "x" =
        some (PropBacking.accessor (mkBackingSlot j (Value.num 1)))) ∧
      List.foldl setSlot (SlotContent.refCell 0 (Value.num 1)) [Value.num 2, Value.num 3] =
        SlotContent.refCell 0 (lastWrite (Value.num 1) [Value.num 2, Value.num 3]) ∧
      setSlot (SlotContent.reactiveVal (Value.object 4)) (Value.object 5) =
        SlotContent.reactiveVal (reactive (Value.object 5)) :=
  ⟨observable_backing_cell_invariant.1 [("x", Value.num 1)] [] "x" (Value.num 1) rfl rfl,
    observable_backing_cell_invariant.2.1 0 (Value.num 1) [Value.num 2, Value.num 3],
    observable_backing_cell_invariant.2.2 (Value.object 4) (Value.object 5)⟩

/-! ## Decorator target checks

Translation of the validation performed by the two decorators before they
do anything else (source lines 33-45 and 72-78). An `Except.error` result
models the thrown error: no registration is recorded and no transformed
class is produced on that path.
-/

/-- Property keys as the decorator context carries them (`context.name`):
a string name or a symbol. -/
inductive PropertyKey where
  | str (s : String)
  | sym (id : Nat)
  deriving DecidableEq, Repr

/-- Error kinds of the adaptation layer, named as in the spec's error
table. -/
inductive ObsError where
  | invalidPropertyKind
  | invalidTargetKind
  | missingMetadataContainer
  deriving DecidableEq, Repr

/-- Translation of `ObservationIgnored` (source lines 33-45): a
symbol-named member is rejected before the class metadata is touched;
otherwise the member name is appended to the class's ignored list, which
is the decorator's only effect, so the result carries the updated list. -/
def ObservationIgnored (name : PropertyKey) (ignoredProps : List String) :
    Except ObsError (List String) :=
  match name with
  | PropertyKey.sym _ => Except.error ObsError.invalidPropertyKind
  | PropertyKey.str s => Except.ok (ignoredProps ++ [s])

/-- Kinds of decoration targets (`context.kind`). -/
inductive DecoratorTargetKind where
  | cls
  | field
  | method
  | accessor
  | getter
  | setter
  deriving DecidableEq, Repr

/-- Translation of the `Observable` decorator's target check (source lines
72-78): a non-class target is rejected before anything is built; on a
class target the transform — the wrapping pass run at every construction —
is installed and returned. -/
def Observable (kind : DecoratorTargetKind) :
    Except ObsError (List (String × Value) → List String → List (String × PropBacking)) :=
  match kind with
  | DecoratorTargetKind.cls => Except.ok wrapInstance
  | _ => Except.error ObsError.invalidTargetKind

/-- Claim C7: the ignore marker on a symbol-named member throws
`InvalidPropertyKind` immediately (the ignored list is not extended), and
the class marker on any non-class target throws `InvalidTargetKind`
immediately (no transform is installed). -/
theorem decorator_rejections (id : Nat) (ignoredProps : List String)
    (kind : DecoratorTargetKind) (hk : kind ≠ DecoratorTargetKind.cls) :
    ObservationIgnored (PropertyKey.sym id) ignoredProps =
        Except.error ObsError.invalidPropertyKind ∧
      Observable kind = Except.error ObsError.invalidTargetKind := by
  constructor
  · rfl
  · cases kind with
    | cls => exact absurd rfl hk
    | field => rfl
    | method => rfl
    | accessor => rfl
    | getter => rfl
    | setter => rfl

/-- Witness for C7 at concrete inputs: a symbol-named member with an empty
ignored list, and the class marker applied to a field. -/
theorem decorator_rejections_witness :
    ObservationIgnored (PropertyKey.sym 0) [] = Except.error ObsError.invalidPropertyKind ∧
      Observable DecoratorTargetKind.field = Except.error ObsError.invalidTargetKind :=
  decorator_rejections 0 [] DecoratorTargetKind.field (by decide)

/-! ## Binding façade

Translation of `Binding` and `bindable` (source lines 147-203). A JS value
here is either an opaque primitive, a plain object given by its own
enumerable string-keyed properties in insertion order, or a `Binding`
whose get/set closures forward to the named property of the observable
(source lines 193-200 close over `observable` and `key`).
-/

/-- JS values as `bindable` manipulates them. -/
inductive JSVal where
  | prim (v : Value)
  | obj (props : List (String × JSVal))
  | binding (sourceKey : String)

/-- Replace the value of an existing own property, or append a new own
property, as one step of `Object.assign`'s `[[Set]]` on a data property. -/
def setJSProp (o : List (String × JSVal)) (k : String) (v : JSVal) : List (String × JSVal) :=
  if (o.map Prod.fst).contains k then
    o.map (fun kv => if kv.1 = k then (k, v) else kv)
  else
    o ++ [(k, v)]

/-- The semantics of `Object.assign(target, source)` on plain data
properties: copy the source's own enumerable properties into the target
in order. -/
def objectAssign (target : List (String × JSVal)) (source : List (String × JSVal)) :
    List (String × JSVal) :=
  source.foldl (fun t kv => setJSProp t kv.1 kv.2) target

/-- Translation of `bindable` (source lines 189-203). The source passes
the result of `Object.getOwnPropertyNames(observable).map(...)` — an
array of one-property objects — directly to `Object.assign` as the source
object. An array's own enumerable properties are its index keys
`"0", "1", ...` (its `length` is non-enumerable), so those index
properties are what `Object.assign` copies. -/
def bindable (observable : List (String × JSVal)) : List (String × JSVal) :=
  let mapped := (observable.map Prod.fst).map
    (fun key => JSVal.obj [("$" ++ key, JSVal.binding key)])
  let arrayOwnProps := mapped.enum.map (fun iv => (toString iv.1, iv.2))
  objectAssign observable arrayOwnProps

/-- Claim C1 is falsified by the code: `Object.assign` receives the mapped
array itself rather than its spread elements, so `bindable` on an object
with the single own property `name` adds the index property `"0"` holding
the one-binding wrapper object, and no property named `$name` exists on
the result; `obj.$name.get()` would be a TypeError, not the original
value. -/
theorem bindable_adds_index_property_not_binding :
    bindable [("name", JSVal.prim (Value.str "X"))] =
      [("name", JSVal.prim (Value.str "X")),
        ("0", JSVal.obj [("$name", JSVal.binding "name")])] ∧
      lookupProp (bindable [("name", JSVal.prim (Value.str "X"))]) "$name" = none ∧
      lookupProp (bindable [("name", JSVal.prim (Value.str "X"))]) "0" =
        some (JSVal.obj [("$name", JSVal.binding "name")]) :=
  ⟨rfl, rfl, rfl⟩

end Obs
